import Mathlib

/-!
Verification of the `redismasking` log processor
(`processor/redismasking/{processor,config}.go`).

The development shallowly embeds the processor's core functions:

* `generateMaskedValue` — the deterministic value synthesizer (SHA-256 of
  original ++ category, with category-specific formatting);
* `getMaskedValue` — the cache-backed get-or-create against a Redis store,
  modelled against a store oracle that fixes the outcome of each operation;
* `maskPatternsInString` — the body-masking loop over compiled patterns;
* `maskLogRecord` / `processLogs` — the record- and batch-level drivers.

Go strings are modelled as `List Char` restricted to ASCII (one byte per
char), so Go's byte-indexed slicing coincides with list `take`/`drop` and
`crypto/sha256` hashes the bytes `strBytes` produces.  SHA-256 itself is
implemented concretely (FIPS 180-4, as computed by Go's `crypto/sha256`)
over `Nat` with explicit mod-2^32 arithmetic, so that theorems can be
evaluated on concrete inputs.  The regex engine is external to the
processor; a compiled pattern carries its `FindAllString` behaviour as a
function, which is all the processor observes of it.
-/

namespace RedisMasking

/-- Truncation to 32 bits, modelling Go's `uint32` arithmetic. -/
def w32 (n : Nat) : Nat := n % 4294967296

/-- Truncation to 8 bits (one byte). -/
def w8 (n : Nat) : Nat := n % 256

/-- Right-rotation of a 32-bit word by `n` places. -/
def rotr (n x : Nat) : Nat := w32 ((x >>> n) ||| (x <<< (32 - n)))

/-- Bitwise complement of a 32-bit word. -/
def not32 (x : Nat) : Nat := x ^^^ 4294967295

/-- The 64 SHA-256 round constants of FIPS 180-4, written in decimal
(round `t` holds the first 32 bits of the fractional part of the cube
root of the `t`-th prime). -/
def shaK : List Nat :=
  [1116352408, 1899447441, 3049323471, 3921009573, 961987163, 1508970993,
   2453635748, 2870763221, 3624381080, 310598401, 607225278, 1426881987,
   1925078388, 2162078206, 2614888103, 3248222580, 3835390401, 4022224774,
   264347078, 604807628, 770255983, 1249150122, 1555081692, 1996064986,
   2554220882, 2821834349, 2952996808, 3210313671, 3336571891, 3584528711,
   113926993, 338241895, 666307205, 773529912, 1294757372, 1396182291,
   1695183700, 1986661051, 2177026350, 2456956037, 2730485921, 2820302411,
   3259730800, 3345764771, 3516065817, 3600352804, 4094571909, 275423344,
   430227734, 506948616, 659060556, 883997877, 958139571, 1322822218,
   1537002063, 1747873779, 1955562222, 2024104815, 2227730452, 2361852424,
   2428436474, 2756734187, 3204031479, 3329325298]

/-- The eight 32-bit words of SHA-256 chaining state. -/
structure Hash8 where
  a : Nat
  b : Nat
  c : Nat
  d : Nat
  e : Nat
  f : Nat
  g : Nat
  hh : Nat
deriving DecidableEq

/-- The SHA-256 initial chaining state, in decimal. -/
def shaInit : Hash8 :=
  ⟨1779033703, 3144134277, 1013904242, 2773480762,
   1359893119, 2600822924, 528734635, 1541459225⟩

/-- Big-endian 8-byte encoding of a 64-bit length. -/
def be64 (n : Nat) : List Nat :=
  [w8 (n >>> 56), w8 (n >>> 48), w8 (n >>> 40), w8 (n >>> 32),
   w8 (n >>> 24), w8 (n >>> 16), w8 (n >>> 8), w8 n]

/-- SHA-256 padding: append `0x80`, zero bytes to 56 mod 64, then the
bit length as a big-endian 64-bit integer. -/
def shaPad (msg : List Nat) : List Nat :=
  msg ++ 128 :: List.replicate ((120 - (msg.length + 1) % 64) % 64) 0
      ++ be64 (8 * msg.length)

/-- The `i`-th big-endian 32-bit word of a 64-byte block. -/
def blockWord (block : List Nat) (i : Nat) : Nat :=
  block.getD (4 * i) 0 * 16777216 + block.getD (4 * i + 1) 0 * 65536 +
    block.getD (4 * i + 2) 0 * 256 + block.getD (4 * i + 3) 0

/-- One step of the SHA-256 message schedule.  The accumulator holds the
words produced so far, most recent first, so `getD 1` is `w[t-2]`,
`getD 6` is `w[t-7]`, `getD 14` is `w[t-15]` and `getD 15` is `w[t-16]`. -/
def schedStep (acc : List Nat) : List Nat :=
  let x := acc.getD 14 0
  let y := acc.getD 1 0
  let s0 := (rotr 7 x) ^^^ (rotr 18 x) ^^^ (x >>> 3)
  let s1 := (rotr 17 y) ^^^ (rotr 19 y) ^^^ (y >>> 10)
  w32 (acc.getD 15 0 + s0 + acc.getD 6 0 + s1) :: acc

/-- The 64-word message schedule of a 64-byte block. -/
def schedule (block : List Nat) : List Nat :=
  ((List.range 48).foldl (fun acc _ => schedStep acc)
    (((List.range 16).map (blockWord block)).reverse)).reverse

/-- One SHA-256 compression round; `wk` pairs the schedule word with the
round constant. -/
def shaRound (st : Hash8) (wk : Nat × Nat) : Hash8 :=
  let s1 := (rotr 6 st.e) ^^^ (rotr 11 st.e) ^^^ (rotr 25 st.e)
  let ch := (st.e &&& st.f) ^^^ ((not32 st.e) &&& st.g)
  let t1 := w32 (st.hh + s1 + ch + wk.2 + wk.1)
  let s0 := (rotr 2 st.a) ^^^ (rotr 13 st.a) ^^^ (rotr 22 st.a)
  let mj := (st.a &&& st.b) ^^^ (st.a &&& st.c) ^^^ (st.b &&& st.c)
  ⟨w32 (t1 + w32 (s0 + mj)), st.a, st.b, st.c, w32 (st.d + t1), st.e, st.f, st.g⟩

/-- Compress one 64-byte block into the chaining state. -/
def processBlock (H : Hash8) (block : List Nat) : Hash8 :=
  let fin := (List.zip (schedule block) shaK).foldl shaRound H
  ⟨w32 (H.a + fin.a), w32 (H.b + fin.b), w32 (H.c + fin.c), w32 (H.d + fin.d),
   w32 (H.e + fin.e), w32 (H.f + fin.f), w32 (H.g + fin.g), w32 (H.hh + fin.hh)⟩

/-- Big-endian byte decomposition of a 32-bit word. -/
def wordBytes (w : Nat) : List Nat :=
  [w8 (w >>> 24), w8 (w >>> 16), w8 (w >>> 8), w8 w]

/-- SHA-256 of a byte sequence, as the 32 digest bytes.  Models Go's
`sha256.Sum256`. -/
def sha256 (msg : List Nat) : List Nat :=
  let padded := shaPad msg
  let fin := (List.range (padded.length / 64)).foldl
    (fun H i => processBlock H ((padded.drop (64 * i)).take 64)) shaInit
  [fin.a, fin.b, fin.c, fin.d, fin.e, fin.f, fin.g, fin.hh].flatMap wordBytes

/-- A Go string as a character list; `gs` injects a Lean string literal. -/
def gs (s : String) : List Char := s.data

/-- The bytes of an ASCII string (one byte per character), as hashed by
`sha256.Sum256([]byte(s))`. -/
def strBytes (s : List Char) : List Nat := s.map Char.toNat

/-- Lowercase hex encoding of a byte sequence; models `hex.EncodeToString`. -/
def toHexChars (bs : List Nat) : List Char :=
  bs.foldr (fun b acc => Nat.digitChar (b / 16) :: Nat.digitChar (b % 16) :: acc) []

/-- Decimal rendering of a byte, as `fmt.Sprintf("%d", b)`. -/
def decimal (n : Nat) : List Char := Nat.toDigits 10 n

/-- A compiled detection pattern (`compiledPattern` in the source).  The
compiled regex itself is external; what the processor observes of it is
`FindAllString(text, -1)`, carried here as the function `findAll`.
`maskPre` embeds the source field holding the configured masked-value
prefix for this pattern. -/
structure CompiledPattern where
  name : List Char
  findAll : List Char → List (List Char)
  maskPre : List Char

/-- The processor configuration (`Config` in `config.go`); the pattern
list is carried in compiled form on the processor. -/
structure Config where
  redisAddr : List Char
  redisPassword : List Char
  redisDB : Int
  tokenTTL : Int
  fieldsToMask : List (List Char)

/-- The `maskingProcessor` state: configuration plus the compiled pattern
list, both immutable after construction. -/
structure MaskingProcessor where
  config : Config
  compiledPatterns : List CompiledPattern

/-- The value synthesizer `generateMaskedValue(originalValue, category)`:
a SHA-256 digest of `originalValue ++ category`, formatted by category
(`ipv4` → `10.` and three digest bytes; `hostname` → `host-<8 hex).masked.local`;
`attribute_<field>` → `<field>-<12 hex>`; otherwise the configured
pattern prefix, or none, followed by 12 hex digest characters). -/
def generateMaskedValue (mp : MaskingProcessor) (originalValue category : List Char) :
    List Char :=
  let hash := sha256 (strBytes (originalValue ++ category))
  let hashStr := toHexChars hash
  if category = gs "ipv4" then
    gs "10." ++ decimal (hash.getD 0 0 % 256) ++ gs "." ++
      decimal (hash.getD 1 0 % 256) ++ gs "." ++ decimal (hash.getD 2 0 % 256)
  else if category = gs "hostname" then
    gs "host-" ++ hashStr.take 8 ++ gs ".masked.local"
  else
    let fromPatterns :=
      match mp.compiledPatterns.find? (fun p => p.name == category) with
      | some p => p.maskPre
      | none => []
    let pfx :=
      if category.length > 10 ∧ category.take 10 = gs "attribute_" then
        category.drop 10 ++ gs "-"
      else fromPatterns
    pfx ++ hashStr.take 12

/-- The outcome of a Redis `Get`: a cached value, the distinguished
`redis.Nil` not-found reply, or a transport-level error. -/
inductive GetResult where
  | found (value : List Char)
  | notFound
  | fail (e : List Char)
deriving DecidableEq

/-- A store oracle: fixes the outcome of every operation the processor can
issue against Redis.  `set` returns `some e` when that write would fail
with error `e`; the processor at most logs such failures, so the oracle's
`set` component never influences a returned value. -/
structure Store where
  get : List Char → GetResult
  set : List Char → List Char → Int → Option (List Char)

/-- A store operation issued by the processor, for observing which reads
and writes a call attempts. -/
inductive StoreOp where
  | get (key : List Char)
  | set (key value : List Char) (ttl : Int)
deriving DecidableEq

/-- The forward cache key `mask:<category>:<original>`. -/
def forwardKey (category originalValue : List Char) : List Char :=
  gs "mask:" ++ category ++ gs ":" ++ originalValue

/-- The reverse cache key `unmask:<category>:<masked>`. -/
def reverseKey (category maskedValue : List Char) : List Char :=
  gs "unmask:" ++ category ++ gs ":" ++ maskedValue

/-- `getMaskedValue(ctx, originalValue, category)` against the store
oracle: a cache hit returns the cached value; a `redis.Nil` miss
synthesizes a value, attempts the forward write (failure logged and
swallowed) and the reverse write (error discarded unexamined), and
returns the synthesized value; any other `Get` error is returned as
`redis get error: <e>`.  The second component is the trace of store
operations the call issues. -/
def getMaskedValue (mp : MaskingProcessor) (store : Store)
    (originalValue category : List Char) :
    Except (List Char) (List Char) × List StoreOp :=
  let redisKey := forwardKey category originalValue
  match store.get redisKey with
  | .found cachedValue => (.ok cachedValue, [.get redisKey])
  | .fail e => (.error (gs "redis get error: " ++ e), [.get redisKey])
  | .notFound =>
    let maskedValue := generateMaskedValue mp originalValue category
    let ttl : Int := if mp.config.tokenTTL > 0 then mp.config.tokenTTL else 0
    (.ok maskedValue,
      [.get redisKey, .set redisKey maskedValue ttl,
       .set (reverseKey category maskedValue) originalValue ttl])

/-- `replaceAllGo p0 ptl repl s` replaces every leftmost, non-overlapping
occurrence of the non-empty pattern `p0 :: ptl` in `s` by `repl`, without
rescanning replacement text: the literal-replacement semantics of
`regexp.MustCompile(regexp.QuoteMeta(pat)).ReplaceAllString(s, repl)` for
non-empty `pat`. -/
def replaceAllGo (p0 : Char) (ptl repl : List Char) : List Char → List Char
  | [] => []
  | c :: rest =>
    if (p0 :: ptl).isPrefixOf (c :: rest) then
      repl ++ replaceAllGo p0 ptl repl (rest.drop ptl.length)
    else
      c :: replaceAllGo p0 ptl repl rest
termination_by l => l.length
decreasing_by
  all_goals simp [List.length_drop]
  omega

/-- Global literal replacement, as Go's regexp `ReplaceAllString` on a
quoted pattern; an empty pattern matches at every position, inserting the
replacement before every character and at the end. -/
def replaceAll (s pat repl : List Char) : List Char :=
  match pat with
  | [] => repl ++ s.foldr (fun c acc => c :: (repl ++ acc)) []
  | p0 :: ptl => replaceAllGo p0 ptl repl s

/-- The inner loop of `maskPatternsInString`: process one pattern's
matches in order; a per-match `getMaskedValue` error leaves the text
unchanged for that match and continues with the rest. -/
def maskMatches (mp : MaskingProcessor) (store : Store) (patName : List Char) :
    List Char → List (List Char) → List Char
  | result, [] => result
  | result, m :: ms =>
    match (getMaskedValue mp store m patName).1 with
    | .error _ => maskMatches mp store patName result ms
    | .ok maskedValue =>
      maskMatches mp store patName (replaceAll result m maskedValue) ms

/-- The outer loop of `maskPatternsInString` over the compiled patterns:
each pattern's matches are found in the current, possibly already
substituted, text. -/
def maskPatternsLoop (mp : MaskingProcessor) (store : Store) :
    List CompiledPattern → List Char → List Char
  | [], result => result
  | p :: ps, result =>
    maskPatternsLoop mp store ps (maskMatches mp store p.name result (p.findAll result))

/-- `maskPatternsInString(ctx, text)`. -/
def maskPatternsInString (mp : MaskingProcessor) (store : Store)
    (text : List Char) : List Char :=
  maskPatternsLoop mp store mp.compiledPatterns text

/-- Modelled from the spec's words for `maskBody` (section 4.4): for each
configured pattern in order, find all matches in the current text; for
each match obtain its masked value; on success replace all literal
occurrences of that exact matched substring within the current text; on
per-match error leave that occurrence unmasked and continue; the result is
the cumulative text after all patterns. -/
def maskBodySpec (mp : MaskingProcessor) (store : Store) (text : List Char) :
    List Char :=
  mp.compiledPatterns.foldl
    (fun current p =>
      (p.findAll current).foldl
        (fun cur m =>
          match (getMaskedValue mp store m p.name).1 with
          | .ok maskedValue => replaceAll cur m maskedValue
          | .error _ => cur)
        current)
    text

/-- A pdata value: either a string, or a non-string value carried with its
`AsString` rendering. -/
inductive PValue where
  | str (s : List Char)
  | other (rendered : List Char)
deriving DecidableEq

/-- `Value.AsString()`. -/
def PValue.asString : PValue → List Char
  | .str s => s
  | .other r => r

/-- The attribute-masking loop of `maskLogRecord` for one attribute
`(k, v)`: for each configured field name equal to `k`, ask for a masked
value of the attribute's current rendering under category
`attribute_<k>`; on success the attribute is overwritten (`SetStr`), on
error it is left unmodified and the error is only logged. -/
def maskAttrValue (mp : MaskingProcessor) (store : Store) (k : List Char)
    (v : PValue) : PValue :=
  mp.config.fieldsToMask.foldl
    (fun cur fieldToMask =>
      if k = fieldToMask then
        match (getMaskedValue mp store cur.asString (gs "attribute_" ++ k)).1 with
        | .ok maskedValue => .str maskedValue
        | .error _ => cur
      else cur)
    v

/-- The body-masking step of `maskLogRecord`: pattern masking applies only
to string bodies, and `SetStr` is called only when the masked text differs
from the original.  The boolean records whether `SetStr` was performed. -/
def maskBodyStep (mp : MaskingProcessor) (store : Store) : PValue → PValue × Bool
  | .str originalBody =>
    let maskedBody := maskPatternsInString mp store originalBody
    if maskedBody ≠ originalBody then (.str maskedBody, true)
    else (.str originalBody, false)
  | v => (v, false)

/-- A log record: its attribute map (in iteration order) and its body. -/
structure LogRecord where
  attributes : List (List Char × PValue)
  body : PValue
deriving DecidableEq

/-- `maskLogRecord(ctx, lr)`: mask the listed attributes in place, then
mask patterns in a string body; the function always returns `nil` error. -/
def maskLogRecord (mp : MaskingProcessor) (store : Store) (lr : LogRecord) :
    LogRecord × Option (List Char) :=
  (⟨lr.attributes.map (fun kv => (kv.1, maskAttrValue mp store kv.1 kv.2)),
    (maskBodyStep mp store lr.body).1⟩, none)

/-- A batch of logs: resource logs, each holding scope logs, each holding
log records — the pdata nesting `processLogs` iterates. -/
abbrev Logs := List (List (List LogRecord))

/-- `processLogs(ctx, ld)`: mask every record of the batch; a record-level
error is only logged, and the batch is always returned with `nil` error. -/
def processLogs (mp : MaskingProcessor) (store : Store) (ld : Logs) :
    Logs × Option (List Char) :=
  (ld.map (fun rl => rl.map (fun sl => sl.map (fun lr => (maskLogRecord mp store lr).1))),
   none)

/-- An empty configuration fixture: no connection settings, TTL zero, no
fields to mask. -/
def emptyConfig : Config := ⟨[], [], 0, 0, []⟩

/-- A processor fixture with no compiled patterns. -/
def mp0 : MaskingProcessor := ⟨emptyConfig, []⟩

/-- A processor fixture whose configuration differs from `mp0` in every
scalar field but whose compiled pattern list is the same. -/
def mpAlt : MaskingProcessor :=
  ⟨⟨gs "redis:6379", gs "pw", 3, 60, [gs "user"]⟩, []⟩

/-- A processor fixture with one compiled `ssn` pattern configured with
masked prefix `SSN-`. -/
def mpSSN : MaskingProcessor :=
  ⟨emptyConfig, [⟨gs "ssn", fun _ => [], gs "SSN-"⟩]⟩

/-- A processor fixture listing `username` among the fields to mask. -/
def mpFields : MaskingProcessor := ⟨⟨[], [], 0, 0, [gs "username"]⟩, []⟩

/-- A store fixture whose every operation fails with a transport error:
the store is entirely unavailable. -/
def downStore : Store :=
  ⟨fun _ => .fail (gs "connection refused"),
   fun _ _ _ => some (gs "connection refused")⟩

/-- A store fixture whose reads all report the distinguished `redis.Nil`
not-found reply and whose writes all fail. -/
def missStore : Store :=
  ⟨fun _ => .notFound, fun _ _ _ => some (gs "connection refused")⟩

/-- Modelled from the claim's words for the `ipv4` case: four digest bytes
of the digest of `original ++ category`, rendered as the four octets of a
dotted-quad address.  Compared against the embedded `generateMaskedValue`,
which uses only three digest bytes below a constant first octet. -/
def claimedIpv4Quad (originalValue : List Char) : List Char :=
  let hash := sha256 (strBytes (originalValue ++ gs "ipv4"))
  decimal (hash.getD 0 0) ++ gs "." ++ decimal (hash.getD 1 0) ++ gs "." ++
    decimal (hash.getD 2 0) ++ gs "." ++ decimal (hash.getD 3 0)

/-- A log record fixture whose body is not a string value. -/
def lrOther : LogRecord :=
  ⟨[(gs "username", PValue.str (gs "alice"))], PValue.other (gs "42")⟩

/-- A one-record batch fixture. -/
def ld0 : Logs :=
  [[[⟨[(gs "username", PValue.str (gs "alice"))], PValue.str (gs "hello")⟩]]]

theorem wordBytes_mem_lt (w : Nat) : ∀ b ∈ wordBytes w, b < 256 := by
  intro b hb
  simp only [wordBytes, List.mem_cons, List.not_mem_nil, or_false] at hb
  rcases hb with h | h | h | h <;> subst h <;>
    exact Nat.mod_lt _ (by norm_num)

theorem sha256_mem_lt (msg : List Nat) : ∀ b ∈ sha256 msg, b < 256 := by
  intro b hb
  simp only [sha256, List.mem_flatMap] at hb
  rcases hb with ⟨w, _, hw⟩
  exact wordBytes_mem_lt w b hw

theorem sha256_getD_lt (msg : List Nat) (i : Nat) : (sha256 msg).getD i 0 < 256 := by
  rcases Nat.lt_or_ge i (sha256 msg).length with hi | hi
  · rw [List.getD_eq_getElem (sha256 msg) 0 hi]
    exact sha256_mem_lt msg _ (List.getElem_mem hi)
  · rw [List.getD_eq_getElem?_getD, List.getElem?_eq_none hi]
    norm_num

theorem sha256_getD_mod (msg : List Nat) (i : Nat) :
    (sha256 msg).getD i 0 % 256 = (sha256 msg).getD i 0 :=
  Nat.mod_eq_of_lt (sha256_getD_lt msg i)

theorem foldl_stays {α : Type} {β : Type} (step : α → β → α) (a : α)
    (h : ∀ b, step a b = a) : ∀ l : List β, l.foldl step a = a
  | [] => rfl
  | b :: l => by rw [List.foldl_cons, h b]; exact foldl_stays step a h l

theorem maskMatches_eq_foldl (mp : MaskingProcessor) (store : Store)
    (patName : List Char) : ∀ (ms : List (List Char)) (result : List Char),
    maskMatches mp store patName result ms =
      ms.foldl (fun cur m =>
        match (getMaskedValue mp store m patName).1 with
        | .ok maskedValue => replaceAll cur m maskedValue
        | .error _ => cur) result := by
  intro ms
  induction ms with
  | nil => intro result; rfl
  | cons m ms ih =>
    intro result
    rcases h : (getMaskedValue mp store m patName).1 with e | maskedValue
    · simp only [maskMatches, h, List.foldl_cons]
      exact ih result
    · simp only [maskMatches, h, List.foldl_cons]
      exact ih (replaceAll result m maskedValue)

theorem maskPatternsLoop_eq_foldl (mp : MaskingProcessor) (store : Store) :
    ∀ (ps : List CompiledPattern) (text : List Char),
    maskPatternsLoop mp store ps text =
      ps.foldl (fun current p =>
        (p.findAll current).foldl (fun cur m =>
          match (getMaskedValue mp store m p.name).1 with
          | .ok maskedValue => replaceAll cur m maskedValue
          | .error _ => cur) current) text := by
  intro ps
  induction ps with
  | nil => intro text; rfl
  | cons p ps ih =>
    intro text
    simp only [maskPatternsLoop, List.foldl_cons, maskMatches_eq_foldl]
    exact ih _

/-- C1: if the cache read in `getMaskedValue` fails with a transport-level
error — not the distinguished not-found reply — the call returns that
error (as `redis get error: <e>`), and no write is attempted: the call's
store-operation trace contains no `set`.  Synthesis is reached only from
the explicit not-found branch. -/
theorem getMaskedValue_read_error_propagates (mp : MaskingProcessor)
    (store : Store) (originalValue category e : List Char)
    (h : store.get (forwardKey category originalValue) = .fail e) :
    (getMaskedValue mp store originalValue category).1 =
      Except.error (gs "redis get error: " ++ e) ∧
    ∀ k v t, StoreOp.set k v t ∉ (getMaskedValue mp store originalValue category).2 := by
  refine ⟨?_, ?_⟩
  · simp only [getMaskedValue, h]
  · intro k v t
    simp [getMaskedValue, h]

/-- Witness for C1 at a concrete unavailable store. -/
theorem getMaskedValue_read_error_propagates_witness :
    (getMaskedValue mp0 downStore (gs "1.2.3.4") (gs "ipv4")).1 =
      Except.error (gs "redis get error: " ++ gs "connection refused") ∧
    ∀ k v t, StoreOp.set k v t ∉ (getMaskedValue mp0 downStore (gs "1.2.3.4") (gs "ipv4")).2 :=
  getMaskedValue_read_error_propagates mp0 downStore (gs "1.2.3.4") (gs "ipv4")
    (gs "connection refused") rfl

/-- C2, counterexample: with the store entirely unavailable (every
operation fails with a transport error), `getMaskedValue` does not return
the synthesizer's value — it returns the propagated read error. -/
theorem getMaskedValue_unavailable_store_errors :
    (getMaskedValue mp0 downStore (gs "alice") (gs "username")).1 ≠
      Except.ok (generateMaskedValue mp0 (gs "alice") (gs "username")) := by
  intro h
  have hred : (getMaskedValue mp0 downStore (gs "alice") (gs "username")).1 =
      Except.error (gs "redis get error: connection refused") := rfl
  rw [hred] at h
  exact Except.noConfusion h

/-- C2, amended: when every read reports the distinguished not-found reply
and every write fails (the store holds nothing and cannot be written),
`getMaskedValue(v, c)` returns exactly `generateMaskedValue(v, c)`. -/
theorem getMaskedValue_empty_store_returns_synthesized (mp : MaskingProcessor)
    (store : Store) (v c : List Char)
    (hget : ∀ k, store.get k = .notFound)
    (_hset : ∀ k val t, ∃ e, store.set k val t = some e) :
    (getMaskedValue mp store v c).1 = Except.ok (generateMaskedValue mp v c) := by
  simp only [getMaskedValue, hget]

/-- Witness for the amended C2 at a concrete empty, write-failing store. -/
theorem getMaskedValue_empty_store_returns_synthesized_witness :
    (∀ k, missStore.get k = GetResult.notFound) ∧
    (getMaskedValue mp0 missStore (gs "10.1.2.3") (gs "ipv4")).1 =
      Except.ok (generateMaskedValue mp0 (gs "10.1.2.3") (gs "ipv4")) :=
  ⟨fun _ => rfl,
   getMaskedValue_empty_store_returns_synthesized mp0 missStore (gs "10.1.2.3")
     (gs "ipv4") (fun _ => rfl) (fun _ _ _ => ⟨gs "connection refused", rfl⟩)⟩

/-- C3: `generateMaskedValue` is deterministic — it depends only on its
two arguments and the compiled pattern configuration, so two processors
agreeing on their pattern lists (whatever their other configuration)
produce identical masked values for every `(value, category)` pair. -/
theorem generateMaskedValue_deterministic (mp mp' : MaskingProcessor)
    (h : mp.compiledPatterns = mp'.compiledPatterns) (v c : List Char) :
    generateMaskedValue mp v c = generateMaskedValue mp' v c := by
  simp only [generateMaskedValue, h]

/-- Witness for C3: two processors with different configurations but the
same pattern list agree at a concrete input. -/
theorem generateMaskedValue_deterministic_witness :
    generateMaskedValue mp0 (gs "alice") (gs "user") =
      generateMaskedValue mpAlt (gs "alice") (gs "user") :=
  generateMaskedValue_deterministic mp0 mpAlt rfl (gs "alice") (gs "user")

set_option maxRecDepth 100000 in
/-- C4, counterexample: at original value `1.2.3.4`, the embedded `ipv4`
synthesis does not render four digest bytes as a dotted quad — neither
bare nor below the fixed `10.` prefix.  Only the first three digest bytes
appear, after the constant first octet `10`. -/
theorem generateMaskedValue_ipv4_not_four_bytes :
    generateMaskedValue mp0 (gs "1.2.3.4") (gs "ipv4") ≠
        claimedIpv4Quad (gs "1.2.3.4") ∧
    generateMaskedValue mp0 (gs "1.2.3.4") (gs "ipv4") ≠
        gs "10." ++ claimedIpv4Quad (gs "1.2.3.4") := by
  constructor <;> decide

/-- C4, amended: for every original value, the `ipv4` category renders the
first *three* bytes of the SHA-256 digest of `original ++ "ipv4"` as the
last three octets of a dotted quad whose first octet is the constant,
non-routable `10`. -/
theorem generateMaskedValue_ipv4_three_bytes (mp : MaskingProcessor)
    (originalValue : List Char) :
    generateMaskedValue mp originalValue (gs "ipv4") =
      gs "10." ++ decimal ((sha256 (strBytes (originalValue ++ gs "ipv4"))).getD 0 0) ++
      gs "." ++ decimal ((sha256 (strBytes (originalValue ++ gs "ipv4"))).getD 1 0) ++
      gs "." ++ decimal ((sha256 (strBytes (originalValue ++ gs "ipv4"))).getD 2 0) := by
  simp only [generateMaskedValue, if_true, sha256_getD_mod]

/-- C5: synthesizing under category `attribute_<f>` for a non-empty field
name `f` strips the marker and returns `f ++ "-" ++` the first 12 hex
characters of the digest of `original ++ category`, for every processor
(any configured pattern whose name collides is overridden). -/
theorem generateMaskedValue_attribute_strips_marker (mp : MaskingProcessor)
    (originalValue f : List Char) (hf : f ≠ []) :
    generateMaskedValue mp originalValue (gs "attribute_" ++ f) =
      f ++ gs "-" ++
        (toHexChars (sha256 (strBytes (originalValue ++ (gs "attribute_" ++ f))))).take 12 := by
  have hfl : 0 < f.length := List.length_pos.mpr hf
  have e1 : (gs "attribute_").length = 10 := rfl
  have h1 : gs "attribute_" ++ f ≠ gs "ipv4" := by
    intro h
    have h2 := congrArg List.length h
    rw [List.length_append] at h2
    have e2 : (gs "ipv4").length = 4 := rfl
    omega
  have h2 : gs "attribute_" ++ f ≠ gs "hostname" := by
    intro h
    have h2 := congrArg List.length h
    rw [List.length_append] at h2
    have e2 : (gs "hostname").length = 8 := rfl
    omega
  have hlen : (gs "attribute_" ++ f).length > 10 := by
    rw [List.length_append]; omega
  have htake : (gs "attribute_" ++ f).take 10 = gs "attribute_" :=
    List.take_left' e1
  have hdrop : (gs "attribute_" ++ f).drop 10 = f :=
    List.drop_left' e1
  simp only [generateMaskedValue, if_neg h1, if_neg h2, if_pos (And.intro hlen htake),
    hdrop, List.append_assoc]

/-- Witness for C5 at the concrete field `username` and value `alice`. -/
theorem generateMaskedValue_attribute_strips_marker_witness :
    generateMaskedValue mp0 (gs "alice") (gs "attribute_" ++ gs "username") =
      gs "username" ++ gs "-" ++
        (toHexChars (sha256 (strBytes (gs "alice" ++ (gs "attribute_" ++ gs "username"))))).take 12 :=
  generateMaskedValue_attribute_strips_marker mp0 (gs "alice") (gs "username")
    (by decide)

/-- C6: for a category that is not `ipv4`, not `hostname`, and does not
begin with the `attribute_` marker, the synthesized value is the first
matching configured pattern's prefix followed by 12 hex digest
characters; with no matching pattern it is the 12 hex characters alone,
and no error arises (the fallback is silent — `generateMaskedValue` is
total). -/
theorem generateMaskedValue_pattern_lookup (mp : MaskingProcessor)
    (originalValue category : List Char)
    (h1 : category ≠ gs "ipv4") (h2 : category ≠ gs "hostname")
    (h3 : ¬ gs "attribute_" <+: category) :
    (∀ p, mp.compiledPatterns.find? (fun q => q.name == category) = some p →
      generateMaskedValue mp originalValue category =
        p.maskPre ++ (toHexChars (sha256 (strBytes (originalValue ++ category)))).take 12) ∧
    (mp.compiledPatterns.find? (fun q => q.name == category) = none →
      generateMaskedValue mp originalValue category =
        (toHexChars (sha256 (strBytes (originalValue ++ category)))).take 12) := by
  have hcond : ¬ (category.length > 10 ∧ category.take 10 = gs "attribute_") := by
    rintro ⟨_, htake⟩
    exact h3 (htake ▸ List.take_prefix 10 category)
  constructor
  · intro p hp
    simp only [generateMaskedValue, if_neg h1, if_neg h2, if_neg hcond, hp]
  · intro hp
    simp only [generateMaskedValue, if_neg h1, if_neg h2, if_neg hcond, hp,
      List.nil_append]

/-- Witness for C6: with one configured `ssn` pattern, category `ssn`
takes its `SSN-` prefix, and on a patternless processor the same category
falls back to the bare 12 hex characters. -/
theorem generateMaskedValue_pattern_lookup_witness :
    generateMaskedValue mpSSN (gs "123-45-6789") (gs "ssn") =
      gs "SSN-" ++ (toHexChars (sha256 (strBytes (gs "123-45-6789" ++ gs "ssn")))).take 12 ∧
    generateMaskedValue mp0 (gs "123-45-6789") (gs "ssn") =
      (toHexChars (sha256 (strBytes (gs "123-45-6789" ++ gs "ssn")))).take 12 :=
  ⟨(generateMaskedValue_pattern_lookup mpSSN (gs "123-45-6789") (gs "ssn")
      (by decide) (by decide) (by decide)).1 ⟨gs "ssn", fun _ => [], gs "SSN-"⟩ rfl,
   (generateMaskedValue_pattern_lookup mp0 (gs "123-45-6789") (gs "ssn")
      (by decide) (by decide) (by decide)).2 rfl⟩

/-- C7: `maskPatternsInString` coincides with the specified `maskBody`
behaviour — patterns processed in configured order, each pattern's matches
found in the current (possibly already substituted) text, each successful
match replaced by global literal substitution, each per-match error
skipped, the cumulative text returned. -/
theorem maskPatternsInString_eq_maskBodySpec (mp : MaskingProcessor)
    (store : Store) (text : List Char) :
    maskPatternsInString mp store text = maskBodySpec mp store text := by
  simp only [maskPatternsInString, maskBodySpec, maskPatternsLoop_eq_foldl]

/-- C8: on the cache-miss path, write failures never surface: whenever the
read reports not-found, `getMaskedValue` returns the freshly synthesized
value whatever the store does with the two writes; and an error result can
only originate from a failed read. -/
theorem getMaskedValue_write_failures_nonfatal (mp : MaskingProcessor)
    (store : Store) (v c : List Char) :
    (store.get (forwardKey c v) = .notFound →
      (getMaskedValue mp store v c).1 = Except.ok (generateMaskedValue mp v c)) ∧
    (∀ e, (getMaskedValue mp store v c).1 = Except.error e →
      ∃ msg, store.get (forwardKey c v) = .fail msg) := by
  constructor
  · intro h
    simp only [getMaskedValue, h]
  · rcases hg : store.get (forwardKey c v) with val | _ | msg
    · intro e he
      simp only [getMaskedValue, hg] at he
      exact Except.noConfusion he
    · intro e he
      simp only [getMaskedValue, hg] at he
      exact Except.noConfusion he
    · intro e _
      exact ⟨msg, rfl⟩

/-- Witness for C8: a concrete store that misses on read and fails every
write still yields the synthesized value. -/
theorem getMaskedValue_write_failures_nonfatal_witness :
    (getMaskedValue mp0 missStore (gs "4111-1111") (gs "cc")).1 =
      Except.ok (generateMaskedValue mp0 (gs "4111-1111") (gs "cc")) :=
  (getMaskedValue_write_failures_nonfatal mp0 missStore (gs "4111-1111") (gs "cc")).1 rfl

/-- C9: a `getMaskedValue` failure for a masked field leaves that
attribute's value unmodified, while record- and batch-level processing
still succeed: `maskLogRecord` always returns `nil` error and
`processLogs` returns the batch without error. -/
theorem maskAttrValue_error_isolated (mp : MaskingProcessor) (store : Store)
    (k e : List Char) (v : PValue) (ld : Logs)
    (h : (getMaskedValue mp store v.asString (gs "attribute_" ++ k)).1 = Except.error e) :
    maskAttrValue mp store k v = v ∧
    (∀ lr, (maskLogRecord mp store lr).2 = none) ∧
    (processLogs mp store ld).2 = none := by
  refine ⟨?_, fun lr => rfl, rfl⟩
  unfold maskAttrValue
  apply foldl_stays
  intro fieldToMask
  by_cases hk : k = fieldToMask
  · simp only [if_pos hk, h]
  · simp only [if_neg hk]

/-- Witness for C9: with the store down, the `username` attribute keeps
its original value `alice` and the batch still succeeds. -/
theorem maskAttrValue_error_isolated_witness :
    maskAttrValue mpFields downStore (gs "username") (PValue.str (gs "alice")) =
      PValue.str (gs "alice") ∧
    (processLogs mpFields downStore ld0).2 = none := by
  have H := maskAttrValue_error_isolated mpFields downStore (gs "username")
    (gs "redis get error: connection refused") (PValue.str (gs "alice")) ld0 rfl
  exact ⟨H.1, H.2.2⟩

/-- C10: a record whose body is not a string keeps its body completely
unchanged, and even for string bodies the body is rewritten (`SetStr`)
exactly when the masked text differs from the original. -/
theorem maskLogRecord_body_frame (mp : MaskingProcessor) (store : Store)
    (lr : LogRecord) (h : ∀ s, lr.body ≠ PValue.str s) :
    ((maskLogRecord mp store lr).1).body = lr.body ∧
    maskBodyStep mp store lr.body = (lr.body, false) ∧
    ∀ s, ((maskBodyStep mp store (PValue.str s)).2 = true ↔
      maskPatternsInString mp store s ≠ s) := by
  have hb : maskBodyStep mp store lr.body = (lr.body, false) := by
    cases hbody : lr.body with
    | str s => exact absurd hbody (h s)
    | other r => rfl
  refine ⟨?_, hb, ?_⟩
  · show (maskBodyStep mp store lr.body).1 = lr.body
    rw [hb]
  · intro s
    by_cases hne : maskPatternsInString mp store s = s <;>
      simp [maskBodyStep, hne]

/-- Witness for C10 at a concrete record with an integer-typed body. -/
theorem maskLogRecord_body_frame_witness :
    ((maskLogRecord mp0 missStore lrOther).1).body = lrOther.body :=
  (maskLogRecord_body_frame mp0 missStore lrOther
    (fun _ h => PValue.noConfusion h)).1

end RedisMasking
